import Mathlib

/-!
Verification of the letta-cowork event relay, runner, and UI message reducer.

The definitions below are shallow embeddings of the TypeScript sources:

* `streamStep` embeds the `stream.message` case of `handleServerEvent` in
  `src/ui/App.tsx` (the zustand store reducer that merges streamed messages
  into a conversation's ordered message log).
* `runnerEvents`, `acquireSession`, `isValidLettaId` embed `runLetta` in
  `src/electron/libs/runner.ts` (session acquisition, stream forwarding,
  terminal-result handling, the post-loop completion check and the
  catch-block error handling).
* `continueEvents`, `handleStop`, `resolvePending` embed the corresponding
  branches of `handleClientEvent` in the IPC handler module.
* `runLettaStart` embeds the module-global `activeLettaSession` used by the
  abort capability returned from `runLetta`.
* `applySessionStatus` embeds the `session.status` case of
  `handleServerEvent` in `src/ui/App.tsx`.

JavaScript string truthiness is modelled by treating the empty string as
falsy; absent (`undefined`/`null`) optional values are `Option.none`.
-/

/-- A streamed SDK message as seen by the UI reducer and the runner.
String fields model the dynamically-typed payload: `""` stands for an
absent (`undefined`) field, matching JavaScript falsiness of `""`. -/
structure Msg where
  type : String
  uuid : String
  id : String
  content : String
  success : Bool
deriving Repr, DecidableEq

/-- `(message as any).uuid || (message as any).id` from `App.tsx`. -/
def msgIdOf (m : Msg) : String :=
  if m.uuid = "" then m.id else m.uuid

/-- The `findIndex` predicate from `App.tsx`:
`(m as any).uuid === msgId || (m as any).id === msgId`. -/
def matchesId (i : String) (m : Msg) : Bool :=
  m.uuid = i || m.id = i

/-- `msgType === "reasoning" || msgType === "assistant"` from `App.tsx`. -/
def isStreamingType (t : String) : Bool :=
  t = "reasoning" || t = "assistant"

/-- `Array.prototype.findIndex` over the message log: the index of the
first entry matching identifier `i`, if any. -/
def findMatch (i : String) : List Msg → Option Nat
  | [] => none
  | m :: rest =>
      if matchesId i m then some 0
      else (findMatch i rest).map (· + 1)

/-- One step of the `stream.message` reducer from `App.tsx`: merge an
inbound message into the log.  With an identifier and a matching prior
entry, streaming kinds accumulate content in place and all other kinds
replace in place; otherwise the message is appended. -/
def streamStep (messages : List Msg) (m : Msg) : List Msg :=
  let msgId := msgIdOf m
  if msgId = "" then messages ++ [m]
  else
    match findMatch msgId messages with
    | none => messages ++ [m]
    | some i =>
        if isStreamingType m.type then
          messages.set i { m with content := (messages.getD i m).content ++ m.content }
        else
          messages.set i m

/-- Ordered concatenation of the content fields of a fragment sequence. -/
def contentJoin : List Msg → String
  | [] => ""
  | f :: rest => f.content ++ contentJoin rest

theorem matchesId_of_msgIdOf (m : Msg) (i : String) (hm : msgIdOf m = i) :
    matchesId i m = true := by
  unfold msgIdOf at hm
  unfold matchesId
  by_cases h : m.uuid = ""
  · simp [h] at hm
    simp [hm]
  · simp [h] at hm
    simp [hm]

theorem findMatch_none (i : String) (L : List Msg)
    (hL : ∀ x ∈ L, matchesId i x = false) : findMatch i L = none := by
  induction L with
  | nil => rfl
  | cons x rest ih =>
      have hx := hL x (by simp)
      have hr := ih (fun y hy => hL y (by simp [hy]))
      simp [findMatch, hx, hr]

theorem findMatch_append_singleton (i : String) (L : List Msg) (e : Msg)
    (hL : ∀ x ∈ L, matchesId i x = false) (he : matchesId i e = true) :
    findMatch i (L ++ [e]) = some L.length := by
  induction L with
  | nil => simp [findMatch, he]
  | cons x rest ih =>
      have hx := hL x (by simp)
      have hr := ih (fun y hy => hL y (by simp [hy]))
      simp [findMatch, hx, hr, List.append_eq]

theorem getD_append_length (L : List Msg) (e d : Msg) :
    (L ++ [e]).getD L.length d = e := by
  induction L with
  | nil => rfl
  | cons x rest ih => simp [ih]

theorem set_append_length (L : List Msg) (e x : Msg) :
    (L ++ [e]).set L.length x = L ++ [x] := by
  induction L with
  | nil => rfl
  | cons y rest ih => simp [ih]

theorem streamStep_accumulates (idv : String) (L : List Msg) (e f : Msg)
    (hid : idv ≠ "")
    (hL : ∀ x ∈ L, matchesId idv x = false)
    (he : matchesId idv e = true)
    (hf : msgIdOf f = idv) (hfs : isStreamingType f.type = true) :
    streamStep (L ++ [e]) f = L ++ [{ f with content := e.content ++ f.content }] := by
  unfold streamStep
  rw [hf, if_neg hid, findMatch_append_singleton idv L e hL he]
  simp [hfs, getD_append_length, set_append_length]

theorem foldl_streamStep_acc (idv : String) (L : List Msg)
    (frags : List Msg) (e : Msg)
    (hid : idv ≠ "")
    (hL : ∀ x ∈ L, matchesId idv x = false)
    (he : matchesId idv e = true)
    (hfr : ∀ f ∈ frags, msgIdOf f = idv ∧ isStreamingType f.type = true) :
    ∃ e2, frags.foldl streamStep (L ++ [e]) = L ++ [e2] ∧
      e2.content = e.content ++ contentJoin frags ∧
      matchesId idv e2 = true := by
  induction frags generalizing e with
  | nil =>
      exact ⟨e, rfl, by simp [contentJoin], he⟩
  | cons f rest ih =>
      obtain ⟨hfid, hfst⟩ := hfr f (by simp)
      have hstep := streamStep_accumulates idv L e f hid hL he hfid hfst
      have he2 : matchesId idv { f with content := e.content ++ f.content } = true :=
        matchesId_of_msgIdOf _ idv hfid
      obtain ⟨e2, heq, hcont, hm⟩ :=
        ih { f with content := e.content ++ f.content } he2
          (fun g hg => hfr g (by simp [hg]))
      refine ⟨e2, ?_, ?_, hm⟩
      · rw [List.foldl_cons, hstep, heq]
      · rw [hcont]
        simp [contentJoin, String.append_assoc]

theorem findMatch_set_self (idv : String) (L : List Msg) (m : Msg) (i : Nat)
    (hf : findMatch idv L = some i) (hm : matchesId idv m = true) :
    findMatch idv (L.set i m) = some i := by
  induction L generalizing i with
  | nil => simp [findMatch] at hf
  | cons x rest ih =>
      by_cases hx : matchesId idv x = true
      · have hi : i = 0 := by
          simp [findMatch, hx] at hf
          omega
        subst hi
        simp [findMatch, hm, List.set]
      · have hx2 : matchesId idv x = false := by
          simpa using hx
        cases hj : findMatch idv rest with
        | none => simp [findMatch, hx2, hj] at hf
        | some j =>
            have hi : i = j + 1 := by
              simp [findMatch, hx2, hj] at hf
              omega
            subst hi
            simp [findMatch, hx2, List.set, ih j hj]

/-- C2: delivering a sequence of `stream.message` events that share a stable
identifier and are all of a streaming kind (`assistant`/`reasoning`) to a log
with no prior entry for that identifier leaves the log extended by a single
entry whose content is the ordered concatenation of the fragments' contents,
sitting at the position where the first fragment was appended (the old log
length), which is also the unique position matching the identifier. -/
theorem streaming_fragments_accumulate (idv : String) (L : List Msg)
    (f0 : Msg) (frags : List Msg)
    (hid : idv ≠ "")
    (hL : ∀ x ∈ L, matchesId idv x = false)
    (hall : ∀ f ∈ f0 :: frags, msgIdOf f = idv ∧ isStreamingType f.type = true) :
    ∃ e, (f0 :: frags).foldl streamStep L = L ++ [e] ∧
      e.content = contentJoin (f0 :: frags) ∧
      matchesId idv e = true ∧
      findMatch idv (L ++ [e]) = some L.length := by
  obtain ⟨h0id, h0st⟩ := hall f0 (by simp)
  have hstep : streamStep L f0 = L ++ [f0] := by
    unfold streamStep
    rw [h0id, if_neg hid, findMatch_none idv L hL]
  have he : matchesId idv f0 = true := matchesId_of_msgIdOf f0 idv h0id
  obtain ⟨e, heq, hcont, hm⟩ := foldl_streamStep_acc idv L frags f0 hid hL he
    (fun g hg => hall g (by simp [hg]))
  refine ⟨e, ?_, ?_, hm, findMatch_append_singleton idv L e hL hm⟩
  · rw [List.foldl_cons, hstep, heq]
  · rw [hcont]
    rfl

theorem streaming_fragments_accumulate_witness :
    ∃ e, ([⟨"assistant", "m1", "", "Hel", true⟩,
           ⟨"assistant", "m1", "", "lo", true⟩] : List Msg).foldl streamStep [] =
        [] ++ [e] ∧
      e.content = contentJoin [⟨"assistant", "m1", "", "Hel", true⟩,
                               ⟨"assistant", "m1", "", "lo", true⟩] ∧
      matchesId "m1" e = true ∧
      findMatch "m1" ([] ++ [e]) = some (List.length ([] : List Msg)) :=
  streaming_fragments_accumulate "m1" []
    ⟨"assistant", "m1", "", "Hel", true⟩ [⟨"assistant", "m1", "", "lo", true⟩]
    (by decide) (by simp) (by decide)

/-- C6: a `stream.message` whose identifier matches an existing log entry and
whose kind is not streaming replaces that entry in place: the log keeps its
length, the identifier still resolves to the same position, and delivering
the identical message a second time leaves the log unchanged. -/
theorem nonstreaming_replace_in_place (L : List Msg) (m : Msg) (i : Nat)
    (hid : msgIdOf m ≠ "")
    (hnons : isStreamingType m.type = false)
    (_hexist : ∀ x, L[i]? = some x → isStreamingType x.type = false)
    (hfind : findMatch (msgIdOf m) L = some i) :
    streamStep L m = L.set i m ∧
    (streamStep L m).length = L.length ∧
    findMatch (msgIdOf m) (streamStep L m) = some i ∧
    streamStep (streamStep L m) m = streamStep L m := by
  have hrepl : streamStep L m = L.set i m := by
    unfold streamStep
    rw [if_neg hid, hfind]
    simp [hnons]
  have hmm : matchesId (msgIdOf m) m = true := matchesId_of_msgIdOf m _ rfl
  have hf2 : findMatch (msgIdOf m) (L.set i m) = some i :=
    findMatch_set_self _ L m i hfind hmm
  refine ⟨hrepl, ?_, ?_, ?_⟩
  · rw [hrepl]
    simp
  · rw [hrepl]
    exact hf2
  · rw [hrepl]
    unfold streamStep
    rw [if_neg hid, hf2]
    simp [hnons, List.set_set]

theorem nonstreaming_replace_in_place_witness :
    streamStep [⟨"result", "r1", "", "old", true⟩] ⟨"result", "r1", "", "new", true⟩ =
      List.set [⟨"result", "r1", "", "old", true⟩] 0 ⟨"result", "r1", "", "new", true⟩ ∧
    (streamStep [⟨"result", "r1", "", "old", true⟩] ⟨"result", "r1", "", "new", true⟩).length =
      List.length [(⟨"result", "r1", "", "old", true⟩ : Msg)] ∧
    findMatch (msgIdOf ⟨"result", "r1", "", "new", true⟩)
      (streamStep [⟨"result", "r1", "", "old", true⟩] ⟨"result", "r1", "", "new", true⟩) = some 0 ∧
    streamStep (streamStep [⟨"result", "r1", "", "old", true⟩] ⟨"result", "r1", "", "new", true⟩)
        ⟨"result", "r1", "", "new", true⟩ =
      streamStep [⟨"result", "r1", "", "old", true⟩] ⟨"result", "r1", "", "new", true⟩ :=
  nonstreaming_replace_in_place [⟨"result", "r1", "", "old", true⟩]
    ⟨"result", "r1", "", "new", true⟩ 0
    (by decide) (by decide) (by decide) (by decide)

/-- A server-bound event broadcast by the relay, from `types.ts` /
`runner.ts`.  `errorText` is the optional `error` field of a
`session.status` payload. -/
inductive SEvent where
  | status (sessionId statusVal : String) (title : Option String)
      (cwd : Option String) (errorText : Option String)
  | deleted (sessionId : String)
  | streamMessage (sessionId : String) (msg : Msg)
  | userPrompt (sessionId promptText : String)
  | permissionRequest (sessionId toolUseId toolName : String)
deriving Repr, DecidableEq

/-- The `sessionId` field every event payload carries. -/
def sidOf : SEvent → String
  | SEvent.status s _ _ _ _ => s
  | SEvent.deleted s => s
  | SEvent.streamMessage s _ => s
  | SEvent.userPrompt s _ => s
  | SEvent.permissionRequest s _ _ => s

/-- The relay's `payload.sessionId = actualConversationId` rewrite. -/
def setSid (s : String) : SEvent → SEvent
  | SEvent.status _ st t c e => SEvent.status s st t c e
  | SEvent.deleted _ => SEvent.deleted s
  | SEvent.streamMessage _ m => SEvent.streamMessage s m
  | SEvent.userPrompt _ p => SEvent.userPrompt s p
  | SEvent.permissionRequest _ a b => SEvent.permissionRequest s a b

/-- The optional `error` field of a `session.status` event. -/
def errTextOf : SEvent → Option String
  | SEvent.status _ _ _ _ e => e
  | _ => none

/-- `String(error)` applied to an exception with the given `name` and
message, as in the `catch` block of `runLetta`. -/
def stringifyError (nm em : String) : String :=
  nm ++ ": " ++ em

/-- `currentSessionId` after `send()` returns: updated to the backend's
`conversationId` when that is truthy, otherwise left at `session.id`
(`runner.ts` lines 166-173). -/
def currentOf (sessionId : String) (assigned : Option String) : String :=
  match assigned with
  | some c => if c = "" then sessionId else c
  | none => sessionId

/-- How one background invocation of `runLetta` terminates. -/
inductive Outcome where
  | normal
  | thrown (name message : String)
deriving Repr, DecidableEq

/-- One backend interaction as observed by `runLetta`: the conversation id
the backend reports after `send()`, the messages the stream yielded before
terminating, and whether the task finished normally or with an exception. -/
structure BackendRun where
  assigned : Option String
  msgs : List Msg
  outcome : Outcome
deriving Repr, DecidableEq

/-- Events the `runLetta` stream loop emits for one received message:
the verbatim `stream.message` forward, plus a `session.status` derived
from the success flag when the message is a terminal `result`. -/
def msgEvents (sid : String) (m : Msg) : List SEvent :=
  SEvent.streamMessage sid m ::
    (if m.type = "result" then
      [SEvent.status sid (if m.success then "completed" else "error") (some sid) none none]
    else [])

/-- All events the background task of `runLetta` emits, in program order.
`sessionStatus` is the `status` field of the `RunnerSession` object the
caller passed in; the source never writes that field, so it keeps the value
it was constructed with for the whole run (the IPC handlers always pass
`"running"`). -/
def runnerEvents (sessionId sessionStatus : String) (b : BackendRun) : List SEvent :=
  let current := currentOf sessionId b.assigned
  let streamed := b.msgs.flatMap (msgEvents current)
  match b.outcome with
  | Outcome.normal =>
      streamed ++
        (if sessionStatus = "running" then
          [SEvent.status current "completed" (some current) none none]
        else [])
  | Outcome.thrown nm em =>
      streamed ++
        (if nm = "AbortError" then []
        else
          [SEvent.status current "error" (some current) none
            (some (stringifyError nm em))])

/-- C3 (code bug): the post-loop guard `session.status === "running"` reads
a field of the session object that nothing ever mutates, so it is always
true for sessions started by the IPC handlers.  Consequently, after a
terminal `result` with `success = false` has already emitted an `error`
status, stream exhaustion still emits an additional `completed` status for
the same conversation, contradicting the claim. -/
theorem completed_emitted_after_error_result :
    runnerEvents "conv-a" "running"
        ⟨none, [⟨"result", "", "", "", false⟩], Outcome.normal⟩ =
      [SEvent.streamMessage "conv-a" ⟨"result", "", "", "", false⟩,
       SEvent.status "conv-a" "error" (some "conv-a") none none,
       SEvent.status "conv-a" "completed" (some "conv-a") none none] := by
  decide

theorem errTextOf_msgEvents (sid : String) (m : Msg) (e : SEvent)
    (he : e ∈ msgEvents sid m) : errTextOf e = none := by
  unfold msgEvents at he
  by_cases hr : m.type = "result"
  · simp [hr] at he
    rcases he with h | h <;> simp [h, errTextOf]
  · simp [hr] at he
    simp [he, errTextOf]

/-- C8: when the background task of `runLetta` ends with an exception named
`AbortError`, no event at all is added for the failure; when it ends with
any other exception, the emitted events are exactly the forwarded stream
events followed by a single `session.status` `"error"` event carrying the
stringified exception — in particular exactly one emitted event carries
that error text.  The model is a total function, so the failure never
escapes as a process-level fault. -/
theorem runner_exception_handling (sid st : String) (assigned : Option String)
    (msgs : List Msg) (nm em : String) (hnm : nm ≠ "AbortError") :
    runnerEvents sid st ⟨assigned, msgs, Outcome.thrown "AbortError" em⟩ =
      msgs.flatMap (msgEvents (currentOf sid assigned)) ∧
    runnerEvents sid st ⟨assigned, msgs, Outcome.thrown nm em⟩ =
      msgs.flatMap (msgEvents (currentOf sid assigned)) ++
        [SEvent.status (currentOf sid assigned) "error"
          (some (currentOf sid assigned)) none (some (stringifyError nm em))] ∧
    ((runnerEvents sid st ⟨assigned, msgs, Outcome.thrown nm em⟩).filter
        (fun e => decide (errTextOf e = some (stringifyError nm em)))).length = 1 := by
  have hstream : (msgs.flatMap (msgEvents (currentOf sid assigned))).filter
      (fun e => decide (errTextOf e = some (stringifyError nm em))) = [] := by
    rw [List.filter_eq_nil_iff]
    intro e he
    rcases List.mem_flatMap.mp he with ⟨m, _, hm⟩
    simp [errTextOf_msgEvents _ m e hm]
  have h2 : runnerEvents sid st ⟨assigned, msgs, Outcome.thrown nm em⟩ =
      msgs.flatMap (msgEvents (currentOf sid assigned)) ++
        [SEvent.status (currentOf sid assigned) "error"
          (some (currentOf sid assigned)) none (some (stringifyError nm em))] := by
    simp [runnerEvents, hnm]
  refine ⟨by simp [runnerEvents], h2, ?_⟩
  rw [h2, List.filter_append, hstream]
  simp [errTextOf]

theorem runner_exception_handling_witness :
    runnerEvents "s" "running" ⟨none, [], Outcome.thrown "AbortError" "boom"⟩ =
      List.flatMap [] (msgEvents (currentOf "s" none)) ∧
    runnerEvents "s" "running" ⟨none, [], Outcome.thrown "TypeError" "boom"⟩ =
      List.flatMap [] (msgEvents (currentOf "s" none)) ++
        [SEvent.status (currentOf "s" none) "error"
          (some (currentOf "s" none)) none (some (stringifyError "TypeError" "boom"))] ∧
    ((runnerEvents "s" "running" ⟨none, [], Outcome.thrown "TypeError" "boom"⟩).filter
        (fun e => decide (errTextOf e = some (stringifyError "TypeError" "boom")))).length = 1 :=
  runner_exception_handling "s" "running" none [] "TypeError" "boom" (by decide)

/-- JavaScript truthiness of an optional string value (`undefined`, `null`
and `""` are falsy). -/
def jsTruthy (o : Option String) : Bool :=
  match o with
  | some s => if s = "" then false else true
  | none => false

/-- A character matched by the regex class `[0-9a-f]`. -/
def isHexChar (c : Char) : Bool :=
  ('0' ≤ c && c ≤ '9') || ('a' ≤ c && c ≤ 'f')

/-- The UUID alternative of the `isValidLettaId` regex: the first 36
characters form `xxxxxxxx-xxxx-xxxx-xxxx-xxxxxxxxxxxx` with lowercase hex
digits (the regex is anchored at the start only). -/
def isUuidStart (cs : List Char) : Bool :=
  decide (36 ≤ cs.length) &&
    (List.range 36).all (fun i =>
      if i = 8 || i = 13 || i = 18 || i = 23 then cs.getD i ' ' = '-'
      else isHexChar (cs.getD i ' '))

/-- `s` starts with `p`, on the character level (the regex `^` anchor). -/
def strHasPrefix (s p : String) : Bool :=
  p.toList.isPrefixOf s.toList

/-- `isValidLettaId` from `runner.ts`: ids are accepted when they start
with a known prefix (`agent-`, `conv-`, `conversation-`) or with a UUID
pattern; falsy ids are rejected. -/
def isValidLettaId (id : String) : Bool :=
  if id = "" then false
  else
    strHasPrefix id "agent-" || strHasPrefix id "conv-" ||
      strHasPrefix id "conversation-" || isUuidStart id.toList

/-- The session-acquisition mode `runLetta` resolves to. -/
inductive SessionAcquisition where
  | resumeById (id : String)
  | resumeCached (agentId : String)
  | createFresh
deriving Repr, DecidableEq

/-- The session-acquisition branch of `runLetta` (`runner.ts` lines
127-152): a truthy, valid resume id is resumed directly; a truthy but
invalid resume id falls back to the cached agent id when that is truthy
and to fresh creation otherwise; with no resume id the cached agent id is
used when truthy, else a fresh session is created. -/
def acquireSession (resumeConversationId cachedAgentId : Option String) :
    SessionAcquisition :=
  if jsTruthy resumeConversationId &&
      isValidLettaId (resumeConversationId.getD "") then
    SessionAcquisition.resumeById (resumeConversationId.getD "")
  else if jsTruthy resumeConversationId &&
      !isValidLettaId (resumeConversationId.getD "") then
    if jsTruthy cachedAgentId then
      SessionAcquisition.resumeCached (cachedAgentId.getD "")
    else SessionAcquisition.createFresh
  else if jsTruthy cachedAgentId then
    SessionAcquisition.resumeCached (cachedAgentId.getD "")
  else SessionAcquisition.createFresh

/-- C4: a truthy resume conversation id that fails the id-shape validation
is never resumed by that id — acquisition falls back to the cached agent
id when that is truthy and to fresh session creation otherwise. -/
theorem invalid_resume_never_resumed_by_id (rid cached : Option String) (s : String)
    (hrid : rid = some s) (hs : s ≠ "") (hinvalid : isValidLettaId s = false) :
    (∀ x, acquireSession rid cached ≠ SessionAcquisition.resumeById x) ∧
    (∀ a, cached = some a → a ≠ "" →
      acquireSession rid cached = SessionAcquisition.resumeCached a) ∧
    (jsTruthy cached = false →
      acquireSession rid cached = SessionAcquisition.createFresh) := by
  subst hrid
  have htr : jsTruthy (some s) = true := by
    simp [jsTruthy, hs]
  refine ⟨?_, ?_, ?_⟩
  · intro x
    simp [acquireSession, htr, hinvalid]
    by_cases hc : jsTruthy cached = true <;> simp [hc]
  · intro a ha hane
    subst ha
    have hct : jsTruthy (some a) = true := by
      simp [jsTruthy, hane]
    simp [acquireSession, htr, hinvalid, hct]
  · intro hcf
    simp [acquireSession, htr, hinvalid, hcf]

theorem invalid_resume_never_resumed_by_id_witness :
    ((∀ x, acquireSession (some "bogus-id") (some "agent-7") ≠
        SessionAcquisition.resumeById x) ∧
      (∀ a, (some "agent-7" : Option String) = some a → a ≠ "" →
        acquireSession (some "bogus-id") (some "agent-7") =
          SessionAcquisition.resumeCached a) ∧
      (jsTruthy (some "agent-7") = false →
        acquireSession (some "bogus-id") (some "agent-7") =
          SessionAcquisition.createFresh)) ∧
    acquireSession (some "bogus-id") (some "agent-7") =
      SessionAcquisition.resumeCached "agent-7" :=
  ⟨invalid_resume_never_resumed_by_id (some "bogus-id") (some "agent-7") "bogus-id"
      rfl (by decide) (by decide),
    (invalid_resume_never_resumed_by_id (some "bogus-id") (some "agent-7") "bogus-id"
      rfl (by decide) (by decide)).2.1 "agent-7" rfl (by decide)⟩

/-- The module-global state of `runner.ts`: a single process-wide
`activeLettaSession` slot shared by every invocation of `runLetta`.  A
backend session is identified here by a number. -/
structure RunnerGlobals where
  activeLettaSession : Option Nat
deriving Repr, DecidableEq

/-- The abort capability returned by `runLetta`: a closure over the
module-global slot, independent of which conversation the handle was
created for. -/
structure RunnerHandleM where
  abortTarget : RunnerGlobals → Option Nat

/-- The observable effect of one `runLetta` invocation on the module
globals: store the freshly created backend session in the single
`activeLettaSession` slot and hand back a handle whose abort targets
whatever that slot holds at abort time. -/
def runLettaStart (sess : Nat) (_g : RunnerGlobals) :
    RunnerGlobals × RunnerHandleM :=
  ({ activeLettaSession := some sess },
   { abortTarget := fun g2 => g2.activeLettaSession })

/-- C1 (code bug): abort routing is not per-conversation.  Conversation A's
task stores backend session 0 in the shared `activeLettaSession` slot, then
conversation B's task overwrites it with session 1.  While both runner
handles are registered, invoking the abort capability of A's handle aborts
session 1 — B's in-flight backend call — and not A's own session 0. -/
theorem abort_targets_global_session_not_own :
    ((runLettaStart 0 { activeLettaSession := none }).2).abortTarget
        (runLettaStart 1 (runLettaStart 0 { activeLettaSession := none }).1).1 =
      some 1 ∧ (1 : Nat) ≠ 0 := by
  exact ⟨rfl, by decide⟩

/-- The full broadcast sequence of one `session.continue` invocation of
`handleClientEvent`, composed with the `runLetta` background task it
drives: the up-front `running` status and prompt echo under the supplied
id, the `onSessionUpdate` rename block (delete old view, re-announce
running, re-echo prompt) when the backend reports a different conversation
id, then the relayed stream events with the `onEvent` closure rewriting
`sessionId` to the corrected id, and finally the post-loop / catch-block
status.  (`session.status` here is `"running"`, the literal the handler
passes, so the post-loop completion guard holds.) -/
def continueEvents (cid prompt : String) (cwd : Option String)
    (b : BackendRun) : List SEvent :=
  let current := currentOf cid b.assigned
  let renameEvts :=
    if current = cid then []
    else
      [SEvent.deleted cid,
       SEvent.status current "running" (some current) cwd none,
       SEvent.userPrompt current prompt]
  let reroute := fun e => if current = cid then e else setSid current e
  let streamed := (b.msgs.flatMap (msgEvents current)).map reroute
  let tail :=
    match b.outcome with
    | Outcome.normal =>
        [reroute (SEvent.status current "completed" (some current) none none)]
    | Outcome.thrown nm em =>
        if nm = "AbortError" then []
        else
          [reroute (SEvent.status current "error" (some current) none
            (some (stringifyError nm em)))]
  [SEvent.status cid "running" none none none,
   SEvent.userPrompt cid prompt] ++ renameEvts ++ streamed ++ tail

theorem sidOf_setSid (s : String) (e : SEvent) : sidOf (setSid s e) = s := by
  cases e <;> rfl

/-- C5: when the backend assigns a conversation id different from the one a
`continue` command supplied, the relay emits — after the initial running
status and prompt echo under the old id — `session.deleted` carrying the
old id, then `session.status` `"running"` carrying the corrected id, then
`stream.user_prompt` re-echoing the prompt under the corrected id, in that
order; and every event of the invocation emitted after the id change
carries the corrected id. -/
theorem continue_rename_event_order (cid prompt : String) (cwd : Option String)
    (b : BackendRun) (newId : String)
    (ha : b.assigned = some newId) (hne : newId ≠ "") (hdiff : newId ≠ cid) :
    ∃ rest,
      continueEvents cid prompt cwd b =
        [SEvent.status cid "running" none none none,
         SEvent.userPrompt cid prompt,
         SEvent.deleted cid,
         SEvent.status newId "running" (some newId) cwd none,
         SEvent.userPrompt newId prompt] ++ rest ∧
      ∀ e ∈ rest, sidOf e = newId := by
  have hcur : currentOf cid b.assigned = newId := by
    rw [ha]
    simp [currentOf, hne]
  have hset : ∀ e : SEvent, sidOf (setSid newId e) = newId := sidOf_setSid newId
  refine ⟨(b.msgs.flatMap (msgEvents newId)).map (setSid newId) ++
      (match b.outcome with
       | Outcome.normal =>
           [setSid newId (SEvent.status newId "completed" (some newId) none none)]
       | Outcome.thrown nm em =>
           if nm = "AbortError" then []
           else
             [setSid newId (SEvent.status newId "error" (some newId) none
               (some (stringifyError nm em)))]), ?_, ?_⟩
  · simp only [continueEvents, hcur, if_neg hdiff]
    simp
  · intro e he
    rcases List.mem_append.mp he with h | h
    · rcases List.mem_map.mp h with ⟨y, _, rfl⟩
      exact hset y
    · revert h
      cases b.outcome with
      | normal =>
          intro h
          simp at h
          rw [h]
          exact hset _
      | thrown nm em =>
          intro h
          by_cases hab : nm = "AbortError"
          · simp [hab] at h
          · simp [hab] at h
            rw [h]
            exact hset _

theorem continue_rename_event_order_witness :
    ∃ rest,
      continueEvents "conv-123" "next" none
          ⟨some "conv-real", [⟨"assistant", "a1", "", "hi", true⟩], Outcome.normal⟩ =
        [SEvent.status "conv-123" "running" none none none,
         SEvent.userPrompt "conv-123" "next",
         SEvent.deleted "conv-123",
         SEvent.status "conv-real" "running" (some "conv-real") none none,
         SEvent.userPrompt "conv-real" "next"] ++ rest ∧
      ∀ e ∈ rest, sidOf e = "conv-real" :=
  continue_rename_event_order "conv-123" "next" none
    ⟨some "conv-real", [⟨"assistant", "a1", "", "hi", true⟩], Outcome.normal⟩
    "conv-real" rfl (by decide) (by decide)

/-- A pending tool-permission request, from `runtime-state.ts` /
`runner.ts`: the identifiers and input of the suspended tool call.  The
resolution callback's effect is modelled by `resolvePending` below. -/
structure PendingPermission where
  toolUseId : String
  toolName : String
  input : String
deriving Repr, DecidableEq

/-- Modelled from the spec: per-conversation runtime state (the
`runtime-state.ts` module is not among the provided sources).  Per the
spec it holds, for each conversation, the map of outstanding
pending-permission entries keyed by tool-use id. -/
structure RTSession where
  pending : String → Option PendingPermission

/-- Modelled from the spec: the process-wide runtime-state store, a map
from conversation id to runtime session (`getSession` is lookup). -/
def RTState : Type :=
  String → Option RTSession

/-- The `permission.response` branch of `handleClientEvent` combined with
the resolve wrapper `runLetta` installs in `canUseTool`: look up the
conversation's runtime session (absent: no-op), look up the pending
permission by tool-use id (absent: no-op), otherwise delete it from the
map and invoke the suspended resolution callback with the supplied result.
The second component lists the callback invocations performed. -/
def resolvePending (st : RTState) (sid tid result : String) :
    RTState × List (String × String) :=
  match st sid with
  | none => (st, [])
  | some rs =>
      match rs.pending tid with
      | none => (st, [])
      | some _ =>
          (fun k =>
            if k = sid then
              some { pending := fun t => if t = tid then none else rs.pending t }
            else st k,
           [(tid, result)])

/-- C7: a `permission.response` matching a pending request resolves it
exactly once — the callback fires with the supplied result, the entry
leaves the pending map (other entries and other conversations untouched)
— and any response without a matching pending request (an unknown
conversation, an unknown tool-use id, or a duplicate second response)
leaves all state unchanged and invokes nothing. -/
theorem permission_resolved_at_most_once (st : RTState) (sid tid r r2 : String) :
    (∀ rs p, st sid = some rs → rs.pending tid = some p →
      (resolvePending st sid tid r).2 = [(tid, r)] ∧
      (∃ rs2, (resolvePending st sid tid r).1 sid = some rs2 ∧
        rs2.pending tid = none ∧
        ∀ t, t ≠ tid → rs2.pending t = rs.pending t) ∧
      (∀ k, k ≠ sid → (resolvePending st sid tid r).1 k = st k) ∧
      resolvePending (resolvePending st sid tid r).1 sid tid r2 =
        ((resolvePending st sid tid r).1, [])) ∧
    (st sid = none → resolvePending st sid tid r = (st, [])) ∧
    (∀ rs, st sid = some rs → rs.pending tid = none →
      resolvePending st sid tid r = (st, [])) := by
  refine ⟨?_, ?_, ?_⟩
  · intro rs p hs hp
    have h1 : resolvePending st sid tid r =
        (fun k =>
          if k = sid then
            some { pending := fun t => if t = tid then none else rs.pending t }
          else st k, [(tid, r)]) := by
      simp [resolvePending, hs, hp]
    refine ⟨by rw [h1],
      ⟨{ pending := fun t => if t = tid then none else rs.pending t }, ?_, ?_, ?_⟩,
      ?_, ?_⟩
    · rw [h1]
      simp
    · simp
    · intro t ht
      simp [ht]
    · intro k hk
      rw [h1]
      simp [hk]
    · rw [h1]
      simp [resolvePending]
  · intro hs
    simp [resolvePending, hs]
  · intro rs hs hp
    simp [resolvePending, hs, hp]

/-- Concrete runtime state for the C7 witness: one conversation `s1` with
one pending permission `t1`. -/
def wSt : RTState :=
  fun k =>
    if k = "s1" then
      some { pending := fun t =>
        if t = "t1" then some ⟨"t1", "AskUserQuestion", "q"⟩ else none }
    else none

theorem permission_resolved_at_most_once_witness :
    (resolvePending wSt "s1" "t1" "allow").2 = [("t1", "allow")] ∧
    resolvePending (resolvePending wSt "s1" "t1" "allow").1 "s1" "t1" "deny" =
      ((resolvePending wSt "s1" "t1" "allow").1, []) :=
  have h := (permission_resolved_at_most_once wSt "s1" "t1" "allow" "deny").1
    { pending := fun t =>
        if t = "t1" then some ⟨"t1", "AskUserQuestion", "q"⟩ else none }
    ⟨"t1", "AskUserQuestion", "q"⟩ rfl rfl
  ⟨h.1, h.2.2.2⟩

/-- An observable side effect of the IPC handler layer: aborting a runner
handle, removing it from the handle registry, updating the runtime store's
status for a conversation, or broadcasting a server event to all windows. -/
inductive RelayAction where
  | abortHandle (h : Nat)
  | removeHandle (sessionId : String)
  | setStatus (sessionId statusVal : String)
  | broadcast (e : SEvent)
deriving Repr, DecidableEq

/-- `emit` from the IPC handler module: a `session.status` event first
updates the runtime store's status for its conversation, then the event is
broadcast to every window. -/
def emitActs (e : SEvent) : List RelayAction :=
  (match e with
   | SEvent.status sid st _ _ _ => [RelayAction.setStatus sid st]
   | _ => []) ++ [RelayAction.broadcast e]

/-- The `session.stop` branch of `handleClientEvent`: when a runner handle
is registered for the id, abort it and remove it from the registry; in
either case unconditionally set the runtime status to `idle` and emit one
`session.status` `idle` event.  Returns the new handle registry and the
ordered list of side effects. -/
def handleStop (handles : String → Option Nat) (cid : String) :
    (String → Option Nat) × List RelayAction :=
  match handles cid with
  | some h =>
      (fun k => if k = cid then none else handles k,
       [RelayAction.abortHandle h, RelayAction.removeHandle cid,
        RelayAction.setStatus cid "idle"] ++
         emitActs (SEvent.status cid "idle" none none none))
  | none =>
      (handles,
       RelayAction.setStatus cid "idle" ::
         emitActs (SEvent.status cid "idle" none none none))

/-- Whether a relay action is a broadcast. -/
def isBroadcastAct : RelayAction → Bool
  | RelayAction.broadcast _ => true
  | _ => false

/-- C9: `session.stop` always broadcasts exactly one `session.status`
`idle` event for the named conversation and never fails; with no
registered handle nothing else observable happens, and with a registered
handle its abort is invoked and the handle is removed from the registry
(other registrations untouched) before the idle status is emitted. -/
theorem stop_emits_single_idle (handles : String → Option Nat) (cid : String) :
    ((handleStop handles cid).2.filter isBroadcastAct =
      [RelayAction.broadcast (SEvent.status cid "idle" none none none)]) ∧
    (handles cid = none →
      handleStop handles cid =
        (handles,
         [RelayAction.setStatus cid "idle", RelayAction.setStatus cid "idle",
          RelayAction.broadcast (SEvent.status cid "idle" none none none)])) ∧
    (∀ h, handles cid = some h →
      (handleStop handles cid).2 =
        [RelayAction.abortHandle h, RelayAction.removeHandle cid,
         RelayAction.setStatus cid "idle", RelayAction.setStatus cid "idle",
         RelayAction.broadcast (SEvent.status cid "idle" none none none)] ∧
      (handleStop handles cid).1 cid = none ∧
      ∀ k, k ≠ cid → (handleStop handles cid).1 k = handles k) := by
  cases hc : handles cid with
  | none =>
      refine ⟨?_, fun _ => ?_, ?_⟩
      · simp [handleStop, hc, emitActs, isBroadcastAct, List.filter]
      · simp [handleStop, hc, emitActs]
      · intro h hh
        simp [hc] at hh
  | some h0 =>
      refine ⟨?_, fun hn => ?_, ?_⟩
      · simp [handleStop, hc, emitActs, isBroadcastAct, List.filter]
      · simp [hc] at hn
      · intro h hh
        injection hh with h2
        subst h2
        refine ⟨by simp [handleStop, hc, emitActs], ?_, ?_⟩
        · simp [handleStop, hc]
        · intro k hk
          simp [handleStop, hc, hk]

/-- Concrete handle registry for the C9 witness: one handle (7) registered
for conversation `conv-x`. -/
def wHandles : String → Option Nat :=
  fun k => if k = "conv-x" then some 7 else none

theorem stop_emits_single_idle_witness :
    handleStop (fun _ => none) "conv-x" =
      ((fun _ => none : String → Option Nat),
       [RelayAction.setStatus "conv-x" "idle", RelayAction.setStatus "conv-x" "idle",
        RelayAction.broadcast (SEvent.status "conv-x" "idle" none none none)]) ∧
    (handleStop wHandles "conv-x").2 =
      [RelayAction.abortHandle 7, RelayAction.removeHandle "conv-x",
       RelayAction.setStatus "conv-x" "idle", RelayAction.setStatus "conv-x" "idle",
       RelayAction.broadcast (SEvent.status "conv-x" "idle" none none none)] :=
  ⟨(stop_emits_single_idle (fun _ => none) "conv-x").2.1 rfl,
   ((stop_emits_single_idle wHandles "conv-x").2.2 7 rfl).1⟩

/-- A permission request shown in the UI, from `App.tsx`. -/
structure PermReq where
  toolUseId : String
  toolName : String
  input : String
deriving Repr, DecidableEq

/-- `SessionView` from `App.tsx`: one conversation's UI-side state. -/
structure SessionView where
  id : String
  title : String
  status : String
  cwd : Option String
  messages : List Msg
  permissionRequests : List PermReq
  lastPrompt : Option String
  createdAt : Option Nat
  updatedAt : Option Nat
  hydrated : Bool
deriving Repr, DecidableEq

/-- `createSession` from `App.tsx`: the default view for a conversation
seen for the first time. -/
def createSessionView (id : String) : SessionView :=
  { id := id, title := "", status := "idle", cwd := none, messages := [],
    permissionRequests := [], lastPrompt := none, createdAt := none,
    updatedAt := none, hydrated := false }

/-- The slice of the zustand `AppState` the `session.status` case touches. -/
structure UIState where
  sessions : String → Option SessionView
  activeSessionId : Option String
  pendingStart : Bool
  showStartModal : Bool
  promptText : String

/-- JavaScript `a ?? b` for two optional values (`a` unless it is
absent). -/
def jsCoalesce (o d : Option String) : Option String :=
  match o with
  | some c => some c
  | none => d

/-- The `session.status` case of `handleServerEvent` in `App.tsx`: merge
status (always), title and cwd (only when the event carries them) and a
fresh `updatedAt` timestamp into the named session (creating it if
absent), leaving every other field and every other session alone; when a
start was pending, additionally activate the session and clear the
start-modal state. -/
def applySessionStatus (st : UIState) (sid statusv : String)
    (title cwd : Option String) (now : Nat) : UIState :=
  let existing := (st.sessions sid).getD (createSessionView sid)
  let v : SessionView :=
    { existing with
        status := statusv,
        title := title.getD existing.title,
        cwd := jsCoalesce cwd existing.cwd,
        updatedAt := some now }
  let st1 : UIState :=
    { st with sessions := fun k => if k = sid then some v else st.sessions k }
  if st.pendingStart then
    { st1 with
        activeSessionId := some sid,
        pendingStart := false,
        showStartModal := false,
        promptText := "" }
  else st1

/-- C10: processing `session.status` for a session already in the store
rewrites only that session's status, title, cwd and updatedAt — its
messages, permission requests and hydration flag are untouched, title and
cwd are overwritten only when the event carries them — and every other
session in the store is unchanged. -/
theorem session_status_frame (st : UIState) (sid statusv : String)
    (title cwd : Option String) (now : Nat) (ex : SessionView)
    (hex : st.sessions sid = some ex) :
    (∀ k, k ≠ sid →
      (applySessionStatus st sid statusv title cwd now).sessions k =
        st.sessions k) ∧
    ∃ v, (applySessionStatus st sid statusv title cwd now).sessions sid = some v ∧
      v.messages = ex.messages ∧
      v.permissionRequests = ex.permissionRequests ∧
      v.hydrated = ex.hydrated ∧
      v.id = ex.id ∧
      v.lastPrompt = ex.lastPrompt ∧
      v.createdAt = ex.createdAt ∧
      v.status = statusv ∧
      v.updatedAt = some now ∧
      (title = none → v.title = ex.title) ∧
      (∀ t, title = some t → v.title = t) ∧
      (cwd = none → v.cwd = ex.cwd) ∧
      (∀ c, cwd = some c → v.cwd = some c) := by
  have hsess : ∀ k, (applySessionStatus st sid statusv title cwd now).sessions k =
      if k = sid then
        some { ex with
                status := statusv,
                title := title.getD ex.title,
                cwd := jsCoalesce cwd ex.cwd,
                updatedAt := some now }
      else st.sessions k := by
    intro k
    unfold applySessionStatus
    by_cases hp : st.pendingStart <;> simp [hp, hex]
  constructor
  · intro k hk
    rw [hsess k, if_neg hk]
  · have hv : (applySessionStatus st sid statusv title cwd now).sessions sid =
        some { ex with
                status := statusv,
                title := title.getD ex.title,
                cwd := jsCoalesce cwd ex.cwd,
                updatedAt := some now } :=
      (hsess sid).trans (if_pos rfl)
    exact ⟨_, hv, rfl, rfl, rfl, rfl, rfl, rfl, rfl, rfl,
      fun h => by subst h; rfl,
      fun t h => by subst h; rfl,
      fun h => by subst h; rfl,
      fun c h => by subst h; rfl⟩

/-- Concrete existing session for the C10 witness. -/
def wEx : SessionView :=
  { id := "s1", title := "T", status := "running", cwd := some "/w",
    messages := [⟨"assistant", "a", "", "x", true⟩],
    permissionRequests := [⟨"t1", "AskUserQuestion", "i"⟩],
    lastPrompt := none, createdAt := some 1, updatedAt := some 2,
    hydrated := true }

/-- Concrete UI store for the C10 witness. -/
def wUI : UIState :=
  { sessions := fun k => if k = "s1" then some wEx else none,
    activeSessionId := none, pendingStart := false, showStartModal := false,
    promptText := "" }

theorem session_status_frame_witness :
    (∀ k, k ≠ "s1" →
      (applySessionStatus wUI "s1" "completed" none none 5).sessions k =
        wUI.sessions k) ∧
    ∃ v, (applySessionStatus wUI "s1" "completed" none none 5).sessions "s1" = some v ∧
      v.messages = wEx.messages ∧
      v.permissionRequests = wEx.permissionRequests ∧
      v.hydrated = wEx.hydrated ∧
      v.id = wEx.id ∧
      v.lastPrompt = wEx.lastPrompt ∧
      v.createdAt = wEx.createdAt ∧
      v.status = "completed" ∧
      v.updatedAt = some 5 ∧
      ((none : Option String) = none → v.title = wEx.title) ∧
      (∀ t, (none : Option String) = some t → v.title = t) ∧
      ((none : Option String) = none → v.cwd = wEx.cwd) ∧
      (∀ c, (none : Option String) = some c → v.cwd = some c) :=
  session_status_frame wUI "s1" "completed" none none 5 wEx rfl
